import Mathlib

/-!
Verification of the rusty_torrent BitTorrent client against its specification.

This file gives a shallow embedding, in Lean, of the pure computational core of
the repository: the torrent metainfo operations (src/torrent.rs and
lib_rusty_torrent/src/torrent.rs), the peer-wire handshake and message codec
(src/handshake.rs, src/message.rs and lib_rusty_torrent/src/peer_wire_protocol.rs)
and the UDP tracker message codec (src/tracker.rs and
lib_rusty_torrent/src/tracker.rs).

Conventions of the embedding:
  * Rust byte buffers (Vec<u8>, &[u8]) are List Nat whose entries are meant to
    lie below 256; where a fact needs that bound it is an explicit hypothesis.
  * Rust unsigned machine integers are Nat; arithmetic that the source performs
    at a fixed width carries an explicit mod 2^w (release-profile wrapping
    semantics).  Rust signed integers (i32, i64) are Int; the bit pattern of a
    signed value, as produced by to_be_bytes or an `as uN` cast, is tcPat.
  * A Rust function that can return Err or can panic (out-of-bounds slice or
    index) is modelled as returning Option, with none covering the failure;
    each definition's doc comment says which failure none stands for.
  * The SHA-1 library is external to the repository (the spec treats it as a
    consumed pure function), so functions that hash take the digest function
    as an explicit parameter.
-/

namespace RustyTorrent

/-- Big-endian byte expansion of a natural number to a fixed width, most
significant byte first; models Rust to_be_bytes on a w-byte integer (the
value is reduced mod 256^w, which is what the fixed-width type guarantees). -/
def beBytes : Nat → Nat → List Nat
  | 0, _ => []
  | w + 1, x => x / 256 ^ w % 256 :: beBytes w x

/-- Big-endian reading of a byte list as a natural number; models Rust
from_be_bytes on an unsigned integer. -/
def fromBe (l : List Nat) : Nat :=
  l.foldl (fun a b => 256 * a + b) 0

/-- Two's-complement bit pattern of a signed integer at width w bytes, as a
natural number: this is the value Rust serializes for an iN via to_be_bytes,
and the value of an `as uN` cast. -/
def tcPat (w : Nat) (x : Int) : Nat :=
  (x % (256 : Int) ^ w).toNat

/-- Big-endian byte expansion of a signed integer (Rust iN::to_be_bytes). -/
def beBytesInt (w : Nat) (x : Int) : List Nat :=
  beBytes w (tcPat w x)

/-- Signed big-endian reading of a w-byte buffer (Rust iN::from_be_bytes). -/
def sbe (w : Nat) (l : List Nat) : Int :=
  let n := fromBe l
  if n < 256 ^ w / 2 then (n : Int) else (n : Int) - (256 : Int) ^ w

/-- File entry of a torrent (struct File in torrent.rs); the unused private
md5sum option is omitted.  length is a u64. -/
structure File where
  path : List (List Nat)
  length : Nat
deriving DecidableEq

/-- Torrent info dictionary (struct Info in torrent.rs); the private optional
fields (md5sum, private, path, root hash) that no verified operation reads are
omitted.  length is an Option<i64>, pieces a byte string. -/
structure Info where
  name : List Nat
  pieces : List Nat
  piece_length : Nat
  length : Option Int
  files : Option (List File)
deriving DecidableEq

/-- Torrent (struct Torrent in torrent.rs); only the fields the verified
operations read are retained. -/
structure Torrent where
  info : Info
  announce : Option (List Nat)
deriving DecidableEq

/-- Torrent::get_total_length from torrent.rs (identical in both variants):
info.length when present (cast `n as u64`), else the sum of the file lengths
(u64 wrapping accumulation), else 0. -/
def Torrent.get_total_length (t : Torrent) : Nat :=
  match t.info.length with
  | some n => tcPat 8 n
  | none =>
    match t.info.files with
    | some files => files.foldl (fun n f => (n + f.length) % 2 ^ 64) 0
    | none => 0

/-- Torrent::check_piece from torrent.rs (identical logic in both variants).
sha1 is the external digest function.  index is a u32, and the slice bounds
index*20 and index*20+20 are computed in u32 arithmetic, hence the mod 2^32.
none models the Rust panic when the slice bounds fall outside info.pieces. -/
def Torrent.check_piece (sha1 : List Nat → List Nat) (t : Torrent)
    (piece : List Nat) (index : Nat) : Option Bool :=
  let result := sha1 piece
  let start := index * 20 % 2 ^ 32
  let stop := (index * 20 + 20) % 2 ^ 32
  if start ≤ stop ∧ stop ≤ t.info.pieces.length then
    some (decide (result = (t.info.pieces.drop start).take (stop - start)))
  else
    none

/-- Byte string of the protocol name "BitTorrent protocol" (19 ASCII bytes). -/
def protocolBytes : List Nat :=
  [66, 105, 116, 84, 111, 114, 114, 101, 110, 116, 32,
   112, 114, 111, 116, 111, 99, 111, 108]

/-- Byte string of the peer id literal "-MY0001-123456654321" hard-coded in
lib_rusty_torrent/src/peer_wire_protocol.rs Handshake::new. -/
def peerIdLiteralLib : List Nat :=
  [45, 77, 89, 48, 48, 48, 49, 45, 49, 50, 51, 52, 53, 54, 54, 53, 52, 51, 50, 49]

/-- Byte string of the peer id literal "-MY0001-123456654322" hard-coded in
src/handshake.rs Handshake::new. -/
def peerIdLiteralBin : List Nat :=
  [45, 77, 89, 48, 48, 48, 49, 45, 49, 50, 51, 52, 53, 54, 54, 53, 52, 51, 50, 50]

/-- Handshake value (struct Handshake, identical fields in both variants). -/
structure Handshake where
  p_str_len : Nat
  p_str : List Nat
  reserved : List Nat
  info_hash : List Nat
  peer_id : List Nat
deriving DecidableEq

/-- Handshake::new from lib_rusty_torrent/src/peer_wire_protocol.rs: rejects an
info_hash whose length is not 20 and a peer_id whose length is not 20, then
builds the handshake -- storing the hard-coded peer id literal, not the
caller's peer_id argument.  none models the Err return. -/
def Handshake.new (info_hash : List Nat) (peer_id : List Nat) : Option Handshake :=
  if info_hash.length ≠ 20 then none
  else if peer_id.length ≠ 20 then none
  else some { p_str_len := 19
              p_str := protocolBytes
              reserved := List.replicate 8 0
              info_hash := info_hash
              peer_id := peerIdLiteralLib }

/-- Handshake::new from src/handshake.rs (binary variant): takes no peer_id
argument, rejects an info_hash whose length is not 20, and stores the binary
variant's hard-coded peer id literal.  none models the Err return. -/
def Handshake.newBin (info_hash : List Nat) : Option Handshake :=
  if info_hash.length ≠ 20 then none
  else some { p_str_len := 19
              p_str := protocolBytes
              reserved := List.replicate 8 0
              info_hash := info_hash
              peer_id := peerIdLiteralBin }

/-- Handshake::to_buffer from lib_rusty_torrent/src/peer_wire_protocol.rs: a
68-byte buffer of zeroes with byte 0 the pstrlen, bytes 1..20 the first 19
protocol-string bytes, byte 20 left zero, bytes 21..28 the first 7 reserved
bytes, bytes 28..48 the first 20 info_hash bytes and bytes 48..68 the first 20
peer_id bytes.  none models the panic of copy_from_slice when a source field
is shorter than the copied range. -/
def Handshake.to_buffer (h : Handshake) : Option (List Nat) :=
  if 19 ≤ h.p_str.length ∧ 7 ≤ h.reserved.length ∧
      20 ≤ h.info_hash.length ∧ 20 ≤ h.peer_id.length then
    some ([h.p_str_len] ++ h.p_str.take 19 ++ [0] ++ h.reserved.take 7 ++
          h.info_hash.take 20 ++ h.peer_id.take 20)
  else
    none

/-- Handshake::from_buffer from lib_rusty_torrent/src/peer_wire_protocol.rs
(the src/handshake.rs variant is byte-for-byte the same logic): errors only
when the buffer is shorter than 68 bytes, and otherwise reads the fields
positionally with no validation.  none models the Err return. -/
def Handshake.from_buffer (buf : List Nat) : Option Handshake :=
  if buf.length < 68 then none
  else some { p_str_len := buf.getD 0 0
              p_str := (buf.drop 1).take 19
              reserved := List.replicate 8 0
              info_hash := (buf.drop 28).take 20
              peer_id := (buf.drop 48).take 20 }

/-- Message type of the peer wire protocol (enum MessageType). -/
inductive MessageType
  | KeepAlive
  | Choke
  | Unchoke
  | Interested
  | NotInterested
  | Have
  | Bitfield
  | Request
  | Piece
  | Cancel
  | Port
deriving DecidableEq

/-- TryFrom<u8> for MessageType: byte ids 0..9; none models the Err return on
an unknown id. -/
def MessageType.fromU8 : Nat → Option MessageType
  | 0 => some .Choke
  | 1 => some .Unchoke
  | 2 => some .Interested
  | 3 => some .NotInterested
  | 4 => some .Have
  | 5 => some .Bitfield
  | 6 => some .Request
  | 7 => some .Piece
  | 8 => some .Cancel
  | 9 => some .Port
  | _ => none

/-- TryFrom<MessageType> for u8; none models the Err return on KeepAlive. -/
def MessageType.toU8 : MessageType → Option Nat
  | .Choke => some 0
  | .Unchoke => some 1
  | .Interested => some 2
  | .NotInterested => some 3
  | .Have => some 4
  | .Bitfield => some 5
  | .Request => some 6
  | .Piece => some 7
  | .Cancel => some 8
  | .Port => some 9
  | .KeepAlive => none

/-- Peer wire message (struct Message): 4-byte length field, type, optional
payload. -/
structure Message where
  message_length : Nat
  message_type : MessageType
  payload : Option (List Nat)
deriving DecidableEq

/-- TryFrom<&[u8]> for Message from lib_rusty_torrent/src/peer_wire_protocol.rs:
rejects buffers shorter than 5 bytes; a zero length field is a keep-alive with
no payload; a length field of exactly 5 yields the type with no payload; any
other length field yields the type and the payload bytes 5..4+length, rejecting
buffers shorter than 4+length.  none models the Err return. -/
def Message.tryFrom (value : List Nat) : Option Message :=
  if value.length < 5 then none
  else
    let message_length := fromBe (value.take 4)
    if message_length = 0 then
      some { message_length := message_length, message_type := .KeepAlive, payload := none }
    else if message_length = 5 then
      match MessageType.fromU8 (value.getD 4 0) with
      | none => none
      | some t =>
        some { message_length := message_length, message_type := t, payload := none }
    else
      match MessageType.fromU8 (value.getD 4 0) with
      | none => none
      | some t =>
        let endOfMessage := 4 + message_length
        if value.length < endOfMessage then none
        else
          some { message_length := message_length, message_type := t,
                 payload := some ((value.drop 5).take (endOfMessage - 5)) }

/-- TryFrom<Message> for Vec<u8> from lib_rusty_torrent/src/peer_wire_protocol.rs:
the big-endian length field, then for a keep-alive nothing, for
Choke/Unchoke/Interested/NotInterested only the type byte (any payload is
dropped), and for the remaining types the type byte followed by the payload.
none models the Err return when a payload-carrying type has no payload. -/
def Message.tryInto (m : Message) : Option (List Nat) :=
  let buf := beBytes 4 m.message_length
  match m.message_type with
  | .KeepAlive => some buf
  | .Choke | .Unchoke | .Interested | .NotInterested =>
    match m.message_type.toU8 with
    | none => none
    | some b => some (buf ++ [b])
  | .Have | .Bitfield | .Request | .Piece | .Cancel | .Port =>
    match m.message_type.toU8 with
    | none => none
    | some b =>
      match m.payload with
      | none => none
      | some payload => some (buf ++ [b] ++ payload)

/-- Short-circuit test buf[i] == 0 && buf[i+1] == 0 && buf[i+2] == 0 &&
buf[i+3] == 0 from Message::number_of_messages, reading left to right and
stopping at the first nonzero byte; none models the panic of an out-of-bounds
index read. -/
def zeroWord (buf : List Nat) (i : Nat) : Option Bool :=
  if buf.length ≤ i then none
  else if buf.getD i 0 ≠ 0 then some false
  else if buf.length ≤ i + 1 then none
  else if buf.getD (i + 1) 0 ≠ 0 then some false
  else if buf.length ≤ i + 2 then none
  else if buf.getD (i + 2) 0 ≠ 0 then some false
  else if buf.length ≤ i + 3 then none
  else some (decide (buf.getD (i + 3) 0 = 0))

/-- Loop body of Message::number_of_messages: read the 4-byte length prefix at
i, slice off the message of 4+length bytes, and stop when the next four bytes
are all zero.  fuel bounds the iteration count (each step advances i by at
least 4, so buf.length + 1 steps always suffice); none models the panics of
the out-of-bounds reads and slices. -/
def numberOfMessagesGo :
    Nat → List Nat → Nat → List (List Nat) → Nat → Option (List (List Nat) × Nat)
  | 0, _, _, _, _ => none
  | fuel + 1, buf, i, messages, message_num =>
    if buf.length < i + 4 then none
    else
      let j := fromBe ((buf.drop i).take 4) + 4
      if buf.length < i + j then none
      else
        let messages := messages ++ [(buf.drop i).take j]
        match zeroWord buf (i + j) with
        | none => none
        | some true => some (messages, message_num + 1)
        | some false => numberOfMessagesGo fuel buf (i + j) messages (message_num + 1)

/-- Message::number_of_messages (identical in both variants): scans the buffer
message by message, stopping when the four bytes after a message are all zero,
and returns the message slices together with their count. -/
def Message.number_of_messages (buf : List Nat) : Option (List (List Nat) × Nat) :=
  numberOfMessagesGo (buf.length + 1) buf 0 [] 0

/-- Announce request message (struct AnnounceMessage in tracker.rs). -/
structure AnnounceMessage where
  connection_id : Int
  action : Int
  transaction_id : Int
  info_hash : List Nat
  peer_id : List Nat
  downloaded : Int
  left : Int
  uploaded : Int
  event : Int
  ip : Nat
  key : Nat
  num_want : Int
  port : Nat
  extensions : Nat
deriving DecidableEq

/-- ToBuffer for AnnounceMessage from tracker.rs (identical in both variants):
the fields serialized in declaration order, each multi-byte integer in
big-endian byte order. -/
def AnnounceMessage.to_buffer (m : AnnounceMessage) : List Nat :=
  beBytesInt 8 m.connection_id ++
    (beBytesInt 4 m.action ++
    (beBytesInt 4 m.transaction_id ++
    (m.info_hash ++
    (m.peer_id ++
    (beBytesInt 8 m.downloaded ++
    (beBytesInt 8 m.left ++
    (beBytesInt 8 m.uploaded ++
    (beBytesInt 4 m.event ++
    (beBytes 4 m.ip ++
    (beBytes 4 m.key ++
    (beBytesInt 4 m.num_want ++
    (beBytes 2 m.port ++
    beBytes 2 m.extensions))))))))))))

/-- Announce response (struct AnnounceMessageResponse in tracker.rs); the ips
are kept as 4-tuples of octets. -/
structure AnnounceMessageResponse where
  action : Int
  transaction_id : Int
  interval : Int
  leechers : Int
  seeders : Int
  ips : List (Nat × Nat × Nat × Nat)
  ports : List Nat
deriving DecidableEq

/-- Peer record loop of FromBuffer for AnnounceMessageResponse: for i in
(20..buf.len()-6).step_by(6), read a 6-byte record, stop at a 0.0.0.0:0
record, and collect the rest.  All reads are in bounds while i < len-6, so
the loop itself cannot panic; fuel bounds the iteration count (buf.length
always suffices since i advances by 6 each step). -/
def parsePeersGo : Nat → List Nat → Nat → List ((Nat × Nat × Nat × Nat) × Nat)
  | 0, _, _ => []
  | fuel + 1, buf, i =>
    if i < buf.length - 6 then
      let ip := (buf.getD i 0, buf.getD (i + 1) 0, buf.getD (i + 2) 0, buf.getD (i + 3) 0)
      let port := fromBe [buf.getD (i + 4) 0, buf.getD (i + 5) 0]
      if ip = (0, 0, 0, 0) ∧ port = 0 then []
      else (ip, port) :: parsePeersGo fuel buf (i + 6)
    else []

/-- FromBuffer for AnnounceMessageResponse from tracker.rs (identical in both
variants): five big-endian i32 header words at offsets 0,4,8,12,16 after the
8-byte action/transaction prefix layout of the response, then the peer record
loop from offset 20, and the returned ip and port lists drop the first parsed
record (ips[1..], ports[1..]).  none models the panics: a buffer shorter than
the 20-byte header, or the ips[1..] slice when no record was parsed. -/
def AnnounceMessageResponse.from_buffer (buf : List Nat) :
    Option AnnounceMessageResponse :=
  if buf.length < 20 then none
  else
    match parsePeersGo buf.length buf 20 with
    | [] => none
    | _ :: tail =>
      some { action := sbe 4 (buf.take 4)
             transaction_id := sbe 4 ((buf.drop 4).take 4)
             interval := sbe 4 ((buf.drop 8).take 4)
             leechers := sbe 4 ((buf.drop 12).take 4)
             seeders := sbe 4 ((buf.drop 16).take 4)
             ips := tail.map Prod.fst
             ports := tail.map Prod.snd }

/-! Concrete fixtures used by counterexamples and witnesses. -/

/-- Torrent whose info dictionary has neither a length field nor a files list. -/
def t_nolen : Torrent := ⟨⟨[], [], 0, none, none⟩, none⟩

/-- File list of the two-file fixture torrent. -/
def t_files_list : List File := [⟨[], 3⟩, ⟨[], 4⟩]

/-- Torrent with no length field and two files of lengths 3 and 4. -/
def t_files : Torrent := ⟨⟨[], [], 0, none, some t_files_list⟩, none⟩

/-- Stub digest function standing in for the external SHA-1 library in
witnesses: it returns twenty zero bytes for every input. -/
def sha1fix : List Nat → List Nat := fun _ => List.replicate 20 0

/-- Torrent whose pieces string is a single 20-byte hash of zeroes. -/
def t_piece : Torrent := ⟨⟨[], List.replicate 20 0, 0, none, none⟩, none⟩

/-- Torrent whose pieces string holds two 20-byte hashes of zeroes; used to
exhibit a wrap-aliasing index of check_piece: for index 858993460 the u32
products 20i and 20i+20 wrap to 16 and 36, back inside the 40 bytes. -/
def t_piece40 : Torrent := ⟨⟨[], List.replicate 40 0, 0, none, none⟩, none⟩

/-- Torrent whose pieces string is longer than a u32: 24 bytes of ones
followed by 2^32 zeroes.  For index 214748365 the mathematical slice bounds
20i = 2^32+4 and 20i+20 = 2^32+24 are in bounds, but the source's u32
arithmetic wraps them to 4..24, inside the leading ones. -/
def t_pieces_big : Torrent :=
  ⟨⟨[], List.replicate 24 1 ++ List.replicate (2 ^ 32) 0, 0, none, none⟩, none⟩

/-- Handshake value produced by Handshake.new on a valid 20-byte info hash. -/
def hsLit : Handshake :=
  ⟨19, protocolBytes, List.replicate 8 0, List.replicate 20 1, peerIdLiteralLib⟩

/-- Buffer holding three concatenated encoded messages: a Have message, a
keep-alive, and a second Have message. -/
def c6_buf : List Nat :=
  [0, 0, 0, 5, 4, 1, 2, 3, 4] ++ [0, 0, 0, 0] ++ [0, 0, 0, 5, 4, 5, 6, 7, 8]

/-- Announce response buffer of scenario S4: header with action 1,
transaction id 132, interval 1800, leechers 0, seeders 2, then two peer
records 10.0.0.1:6881 and 10.0.0.2:6881, then six zero bytes. -/
def c7_buf : List Nat :=
  [0, 0, 0, 1, 0, 0, 0, 132, 0, 0, 7, 8, 0, 0, 0, 0, 0, 0, 0, 2] ++
    [10, 0, 0, 1, 26, 225] ++ [10, 0, 0, 2, 26, 225] ++ [0, 0, 0, 0, 0, 0]

/-- Announce message with the field values the source constructor uses. -/
def c8_msg : AnnounceMessage :=
  ⟨4497486125440, 1, 132, List.replicate 20 0, List.replicate 20 0,
    0, 0, 0, 1, 0, 234, -1, 61389, 0⟩

/-- Byte buffers for which the amended encode-after-decode direction of the
message codec round-trip holds: buffers of genuine bytes (entries below 256)
that the decoder accepts consuming every byte, excluding the shapes the
counterexample rules out -- namely a length field of 5 must come as the bare
5-byte form with a type id below 4, and any other typed buffer must carry a
payload-type id (4..9) unless its length field is 1. -/
def goodWire (b : List Nat) : Prop :=
  (∀ x ∈ b, x < 256) ∧
  ((fromBe (b.take 4) = 5 ∧ b.length = 5 ∧ b.getD 4 0 < 4)
    ∨ (fromBe (b.take 4) ≠ 0 ∧ fromBe (b.take 4) ≠ 5 ∧
        b.length = 4 + fromBe (b.take 4) ∧ b.getD 4 0 ≤ 9 ∧
        (4 ≤ b.getD 4 0 ∨ fromBe (b.take 4) = 1)))

/-! Auxiliary lemmas about the byte-level primitives. -/

theorem beBytes_length (w x : Nat) : (beBytes w x).length = w := by
  induction w generalizing x with
  | zero => rfl
  | succ w ih => simp [beBytes, ih]

theorem beBytesInt_length (w : Nat) (x : Int) : (beBytesInt w x).length = w :=
  beBytes_length w _

theorem fromBe_go (l : List Nat) (acc : Nat) :
    l.foldl (fun a b => 256 * a + b) acc =
      acc * 256 ^ l.length + l.foldl (fun a b => 256 * a + b) 0 := by
  induction l generalizing acc with
  | nil => simp
  | cons b l ih =>
    simp only [List.foldl_cons, List.length_cons, Nat.mul_zero, Nat.zero_add]
    rw [ih (256 * acc + b), ih b]
    ring

theorem fromBe_cons (a : Nat) (l : List Nat) :
    fromBe (a :: l) = a * 256 ^ l.length + fromBe l := by
  have h := fromBe_go l a
  simpa [fromBe] using h

theorem fromBe_beBytes (w x : Nat) : fromBe (beBytes w x) = x % 256 ^ w := by
  induction w generalizing x with
  | zero => simp [beBytes, fromBe, Nat.mod_one]
  | succ w ih =>
    rw [beBytes, fromBe_cons, beBytes_length, ih, pow_succ, Nat.mod_mul]
    ring

theorem fromBe_lt (l : List Nat) (h : ∀ b ∈ l, b < 256) :
    fromBe l < 256 ^ l.length := by
  induction l with
  | nil => simp [fromBe]
  | cons a l ih =>
    have ha : a < 256 := h a (by simp)
    have hl : fromBe l < 256 ^ l.length := ih (fun b hb => h b (by simp [hb]))
    rw [fromBe_cons, List.length_cons, pow_succ]
    calc a * 256 ^ l.length + fromBe l
        < a * 256 ^ l.length + 256 ^ l.length := by omega
      _ = (a + 1) * 256 ^ l.length := by ring
      _ ≤ 256 * 256 ^ l.length := Nat.mul_le_mul_right _ (by omega)
      _ = 256 ^ l.length * 256 := by ring

theorem beBytes_mod (w x : Nat) : beBytes w (x % 256 ^ w) = beBytes w x := by
  induction w generalizing x with
  | zero => rfl
  | succ w ih =>
    have hdvd : (256 : Nat) ^ w ∣ 256 ^ (w + 1) := pow_dvd_pow 256 (Nat.le_succ w)
    have hmm : x % 256 ^ (w + 1) = x % 256 ^ w + 256 ^ w * (x / 256 ^ w % 256) := by
      rw [pow_succ, Nat.mod_mul]
    rw [beBytes, beBytes]
    congr 1
    · rw [hmm, Nat.add_mul_div_left _ _ (by positivity),
        Nat.div_eq_of_lt (Nat.mod_lt x (by positivity)), Nat.zero_add,
        Nat.mod_mod_of_dvd _ dvd_rfl]
    · calc beBytes w (x % 256 ^ (w + 1))
          = beBytes w (x % 256 ^ (w + 1) % 256 ^ w) := (ih _).symm
        _ = beBytes w (x % 256 ^ w) := by rw [Nat.mod_mod_of_dvd x hdvd]
        _ = beBytes w x := ih x

theorem beBytes_fromBe (l : List Nat) (h : ∀ b ∈ l, b < 256) :
    beBytes l.length (fromBe l) = l := by
  induction l with
  | nil => rfl
  | cons a l ih =>
    have ha : a < 256 := h a (by simp)
    have hl : fromBe l < 256 ^ l.length := fromBe_lt l (fun b hb => h b (by simp [hb]))
    have hmod : (a * 256 ^ l.length + fromBe l) % 256 ^ l.length = fromBe l := by
      rw [mul_comm a (256 ^ l.length), Nat.mul_add_mod, Nat.mod_eq_of_lt hl]
    rw [List.length_cons, beBytes, fromBe_cons]
    congr 1
    · rw [mul_comm a (256 ^ l.length), Nat.mul_add_div (by positivity),
        Nat.div_eq_of_lt hl, Nat.add_zero, Nat.mod_eq_of_lt ha]
    · calc beBytes l.length (a * 256 ^ l.length + fromBe l)
          = beBytes l.length ((a * 256 ^ l.length + fromBe l) % 256 ^ l.length) :=
            (beBytes_mod _ _).symm
        _ = beBytes l.length (fromBe l) := by rw [hmod]
        _ = l := ih (fun b hb => h b (by simp [hb]))

theorem tcPat_lt (w : Nat) (x : Int) : tcPat w x < 256 ^ w := by
  have hpos : (0 : Int) < (256 : Int) ^ w := by positivity
  have h0 : (0 : Int) ≤ x % (256 : Int) ^ w := Int.emod_nonneg x (by positivity)
  have h1 : x % (256 : Int) ^ w < (256 : Int) ^ w := Int.emod_lt_of_pos x hpos
  show (x % (256 : Int) ^ w).toNat < 256 ^ w
  rw [Int.toNat_lt h0]
  push_cast
  exact h1

theorem fromBe_beBytesInt (w : Nat) (x : Int) :
    fromBe (beBytesInt w x) = tcPat w x := by
  rw [beBytesInt, fromBe_beBytes, Nat.mod_eq_of_lt (tcPat_lt w x)]

theorem foldl_wrap_of_lt (M : Nat) (l : List Nat) (acc : Nat)
    (h : acc + l.sum < M) :
    l.foldl (fun a b => (a + b) % M) acc = acc + l.sum := by
  induction l generalizing acc with
  | nil => simp
  | cons b l ih =>
    have hb : (acc + b) % M = acc + b := by
      apply Nat.mod_eq_of_lt
      have := l.sum.zero_le
      simp [List.sum_cons] at h
      omega
    simp only [List.foldl_cons, List.sum_cons, hb]
    rw [ih (acc + b) (by simp [List.sum_cons] at h; omega)]
    omega

/-! Claim C2: Torrent::get_total_length. -/

/-- Claim C2, counterexample: on a torrent with neither info.length nor
info.files, get_total_length does not fail with a metainfo error -- it
returns the value 0. -/
theorem c2_total_length_counterexample :
    t_nolen.info.length = none ∧ t_nolen.info.files = none ∧
      t_nolen.get_total_length = 0 :=
  ⟨rfl, rfl, rfl⟩

/-- Claim C2 (amended): get_total_length returns info.length (cast as u64)
when present; otherwise, when info.files is present, the u64 wrapping sum of
the file lengths, which equals the plain sum of the lengths whenever that sum
fits in a u64; and when neither field is present it returns 0 (it does not
fail). -/
theorem c2_get_total_length (t : Torrent) :
    (∀ n, t.info.length = some n → t.get_total_length = tcPat 8 n)
    ∧ (∀ fs, t.info.length = none → t.info.files = some fs →
        t.get_total_length = fs.foldl (fun n f => (n + f.length) % 2 ^ 64) 0
        ∧ ((fs.map (fun f => f.length)).sum < 2 ^ 64 →
            t.get_total_length = (fs.map (fun f => f.length)).sum))
    ∧ (t.info.length = none → t.info.files = none → t.get_total_length = 0) := by
  refine ⟨?_, ?_, ?_⟩
  · intro n hn
    simp [Torrent.get_total_length, hn]
  · intro fs hn hf
    have hbase : t.get_total_length = fs.foldl (fun n f => (n + f.length) % 2 ^ 64) 0 := by
      simp [Torrent.get_total_length, hn, hf]
    refine ⟨hbase, fun hsum => ?_⟩
    have hw := foldl_wrap_of_lt (2 ^ 64) (fs.map (fun f => f.length)) 0 (by omega)
    rw [List.foldl_map] at hw
    rw [hbase]
    simpa using hw
  · intro hn hf
    simp [Torrent.get_total_length, hn, hf]

/-- Witness for claim C2: the two-file fixture evaluates to the sum 3 + 4. -/
theorem c2_get_total_length_witness :
    t_files.get_total_length = (t_files_list.map (fun f => f.length)).sum :=
  ((c2_get_total_length t_files).2.1 t_files_list rfl rfl).2 (by decide)

/-! Claim C3: the handshake constructor and the caller's peer id. -/

/-- Claim C3, refuted (code bug): Handshake::new validates the caller's
20-byte peer_id but then stores the hard-coded literal, so the peer_id field
of the built handshake -- and bytes 48..68 of its 68-byte encoding -- are the
literal, not the caller's peer_id (here twenty bytes 65). -/
theorem c3_handshake_ignores_caller_peer_id :
    (Handshake.new (List.replicate 20 1) (List.replicate 20 65)).map
        (fun h => h.peer_id) = some peerIdLiteralLib
    ∧ ((Handshake.new (List.replicate 20 1) (List.replicate 20 65)).bind
        Handshake.to_buffer).map (fun b => (b.drop 48).take 20) = some peerIdLiteralLib
    ∧ peerIdLiteralLib ≠ List.replicate 20 65 := by
  decide

/-! Claim C4: the handshake decoder's checks. -/

/-- Claim C4, counterexample: a buffer of 68 zero bytes has pstrlen 0 and a
protocol string of zeroes, yet Handshake::from_buffer accepts it. -/
theorem c4_from_buffer_counterexample :
    Handshake.from_buffer (List.replicate 68 0) =
      some ⟨0, List.replicate 19 0, List.replicate 8 0,
            List.replicate 20 0, List.replicate 20 0⟩
    ∧ (0 : Nat) ≠ 19 ∧ List.replicate 19 0 ≠ protocolBytes := by
  decide

/-- Claim C4 (amended): Handshake::from_buffer errors exactly on buffers
shorter than 68 bytes; on any buffer of length at least 68 it succeeds and
reads pstrlen, protocol string, info hash and peer id positionally, with no
validation of pstrlen, of the protocol string, or of the info hash. -/
theorem c4_from_buffer_length_only (buf : List Nat) :
    ((Handshake.from_buffer buf).isSome = true ↔ 68 ≤ buf.length)
    ∧ ∀ h, Handshake.from_buffer buf = some h →
        h.p_str_len = buf.getD 0 0 ∧ h.p_str = (buf.drop 1).take 19 ∧
        h.reserved = List.replicate 8 0 ∧
        h.info_hash = (buf.drop 28).take 20 ∧ h.peer_id = (buf.drop 48).take 20 := by
  by_cases hl : buf.length < 68
  · refine ⟨by simp [Handshake.from_buffer, hl], ?_⟩
    intro h hh
    simp [Handshake.from_buffer, hl] at hh
  · refine ⟨by simp [Handshake.from_buffer, hl]; omega, ?_⟩
    intro h hh
    simp only [Handshake.from_buffer, if_neg hl, Option.some.injEq] at hh
    subst hh
    exact ⟨rfl, rfl, rfl, rfl, rfl⟩

/-- Witness for claim C4: the all-zero 68-byte buffer is accepted. -/
theorem c4_from_buffer_witness :
    (Handshake.from_buffer (List.replicate 68 0)).isSome = true :=
  ((c4_from_buffer_length_only (List.replicate 68 0)).1).mpr (by decide)

/-! Claim C10: validation performed by the handshake constructors. -/

/-- Claim C10, confirmed: the library Handshake::new succeeds exactly when the
info hash is 20 bytes and the peer id is 20 bytes, the binary variant exactly
when the info hash is 20 bytes, and every successfully built handshake has
pstrlen 19, protocol string "BitTorrent protocol" and eight zero reserved
bytes. -/
theorem c10_handshake_new_validation (ihash pid : List Nat) :
    ((Handshake.new ihash pid).isSome = true ↔ ihash.length = 20 ∧ pid.length = 20)
    ∧ ((Handshake.newBin ihash).isSome = true ↔ ihash.length = 20)
    ∧ (∀ h, Handshake.new ihash pid = some h →
        h.p_str_len = 19 ∧ h.p_str = protocolBytes ∧ h.reserved = List.replicate 8 0)
    ∧ (∀ h, Handshake.newBin ihash = some h →
        h.p_str_len = 19 ∧ h.p_str = protocolBytes ∧ h.reserved = List.replicate 8 0) := by
  refine ⟨?_, ?_, ?_, ?_⟩
  · by_cases h1 : ihash.length = 20 <;> by_cases h2 : pid.length = 20 <;>
      simp [Handshake.new, h1, h2]
  · by_cases h1 : ihash.length = 20 <;> simp [Handshake.newBin, h1]
  · intro h hh
    by_cases h1 : ihash.length = 20 <;> by_cases h2 : pid.length = 20 <;>
      simp [Handshake.new, h1, h2] at hh
    all_goals subst hh
    all_goals exact ⟨rfl, rfl, rfl⟩
  · intro h hh
    by_cases h1 : ihash.length = 20 <;> simp [Handshake.newBin, h1] at hh
    all_goals subst hh
    all_goals exact ⟨rfl, rfl, rfl⟩

/-- Witness for claim C10: the handshake built from a valid 20-byte info hash
and peer id has the constant header fields. -/
theorem c10_handshake_new_witness :
    hsLit.p_str_len = 19 ∧ hsLit.p_str = protocolBytes ∧
      hsLit.reserved = List.replicate 8 0 :=
  (c10_handshake_new_validation (List.replicate 20 1) (List.replicate 20 65)).2.2.1
    hsLit (by decide)

/-! Claims C5 and C9: Torrent::check_piece. -/

/-- Claim C5, counterexample: the source computes the slice bounds 20i and
20i+20 in u32 arithmetic, so the claimed biconditional fails on a torrent
whose pieces string exceeds 2^32 bytes.  For index 214748365 on t_pieces_big
the mathematical bounds 2^32+4 .. 2^32+24 are within info.pieces and the
digest equals that slice (all zeroes), yet check_piece returns some false:
the wrapped u32 bounds 4..24 select the leading ones instead. -/
theorem c5_check_piece_counterexample :
    20 * 214748365 + 20 ≤ t_pieces_big.info.pieces.length
    ∧ sha1fix [] = (t_pieces_big.info.pieces.drop (20 * 214748365)).take 20
    ∧ t_pieces_big.check_piece sha1fix [] 214748365 = some false := by
  have hp : t_pieces_big.info.pieces =
      List.replicate 24 1 ++ List.replicate (2 ^ 32) 0 := rfl
  have hlen : t_pieces_big.info.pieces.length = 2 ^ 32 + 24 := by
    rw [hp, List.length_append, List.length_replicate, List.length_replicate]
    norm_num
  refine ⟨by rw [hlen]; norm_num, ?_, ?_⟩
  · have hsplit : t_pieces_big.info.pieces =
        (List.replicate 24 1 ++ List.replicate (2 ^ 32 - 20) 0) ++
          List.replicate 20 0 := by
      rw [hp, List.append_assoc, ← List.replicate_add]
      norm_num
    have hlen2 : (List.replicate 24 1 ++ List.replicate (2 ^ 32 - 20) 0).length =
        20 * 214748365 := by
      rw [List.length_append, List.length_replicate, List.length_replicate]
      norm_num
    rw [hsplit, List.drop_left' hlen2,
      List.take_of_length_le (by rw [List.length_replicate])]
    rfl
  · have hstart : 214748365 * 20 % 2 ^ 32 = 4 := by norm_num
    have hstop : (214748365 * 20 + 20) % 2 ^ 32 = 24 := by norm_num
    have hsplit2 : t_pieces_big.info.pieces =
        List.replicate 4 1 ++ (List.replicate 20 1 ++ List.replicate (2 ^ 32) 0) := by
      rw [hp, ← List.append_assoc, ← List.replicate_add]
    simp only [Torrent.check_piece, hstart, hstop]
    rw [if_pos ⟨by norm_num, by rw [hlen]; norm_num⟩]
    rw [hsplit2, List.drop_left' (List.length_replicate 4 1),
      show (24 - 4 : Nat) = 20 from rfl,
      List.take_left' (List.length_replicate 20 1)]
    decide

/-- Claim C5 (amended): for an index whose 20-byte hash slice lies inside
info.pieces and whose slice bounds stay below 2^32 -- the source computes
them in u32 arithmetic, and the counterexample shows the claim fails at the
wrap -- check_piece succeeds and returns true exactly when the digest of the
piece equals the slice info.pieces[20i .. 20i+20].  The embedding is a pure
function of the torrent, so the call mutates no state. -/
theorem c5_check_piece (sha1 : List Nat → List Nat) (t : Torrent) (p : List Nat)
    (i : Nat) (h1 : 20 * i + 20 ≤ t.info.pieces.length) (h2 : 20 * i + 20 < 2 ^ 32) :
    t.check_piece sha1 p i = some true ↔
      sha1 p = (t.info.pieces.drop (20 * i)).take 20 := by
  have e1 : i * 20 % 2 ^ 32 = 20 * i := by
    rw [mul_comm]
    exact Nat.mod_eq_of_lt (by omega)
  have e2 : (i * 20 + 20) % 2 ^ 32 = 20 * i + 20 := by
    rw [mul_comm i 20]
    exact Nat.mod_eq_of_lt h2
  have e3 : 20 * i + 20 - 20 * i = 20 := by omega
  simp only [Torrent.check_piece, e1, e2, e3]
  rw [if_pos ⟨by omega, h1⟩]
  simp [decide_eq_true_iff]

/-- Witness for claim C5: the fixture torrent whose single piece hash is the
stub digest of the empty piece. -/
theorem c5_check_piece_witness :
    t_piece.check_piece sha1fix [] 0 = some true ↔
      sha1fix [] = (t_piece.info.pieces.drop (20 * 0)).take 20 :=
  c5_check_piece sha1fix t_piece [] 0 (by decide) (by decide)

/-- Claim C9, counterexample: not every out-of-bounds index panics.  For
index 858993460 on a 40-byte pieces string, 20i+20 exceeds the length by far,
but the source's u32 products wrap to the in-bounds 16..36, so check_piece
evaluates and returns a Boolean instead of failing. -/
theorem c9_check_piece_counterexample :
    t_piece40.info.pieces.length < 20 * 858993460 + 20
    ∧ t_piece40.check_piece sha1fix [] 858993460 = some true := by
  decide

/-- Claim C9 (amended): check_piece carries an unstated bounds precondition
on its index argument.  For indexes whose slice bounds stay below 2^32 (the
source computes them in u32 arithmetic, and the counterexample shows the
out-of-bounds half of the claim fails at the wrap): when 20i+20 is within
info.pieces the slice is in bounds and the call evaluates without error, and
when 20i+20 exceeds the length of info.pieces the slice operation fails (a
Rust panic, modelled as none). -/
theorem c9_check_piece_bounds (sha1 : List Nat → List Nat) (t : Torrent)
    (p : List Nat) (i : Nat) (h2 : 20 * i + 20 < 2 ^ 32) :
    (20 * i + 20 ≤ t.info.pieces.length → (t.check_piece sha1 p i).isSome = true)
    ∧ (t.info.pieces.length < 20 * i + 20 → t.check_piece sha1 p i = none) := by
  have e1 : i * 20 % 2 ^ 32 = 20 * i := by
    rw [mul_comm]
    exact Nat.mod_eq_of_lt (by omega)
  have e2 : (i * 20 + 20) % 2 ^ 32 = 20 * i + 20 := by
    rw [mul_comm i 20]
    exact Nat.mod_eq_of_lt h2
  constructor
  · intro h1
    simp only [Torrent.check_piece, e1, e2]
    rw [if_pos ⟨by omega, h1⟩]
    rfl
  · intro h1
    simp only [Torrent.check_piece, e1, e2]
    rw [if_neg]
    intro hc
    omega

/-- Witness for claim C9: index 1 is out of bounds for a single-hash pieces
string and check_piece fails there. -/
theorem c9_check_piece_bounds_witness :
    t_piece.check_piece sha1fix [] 1 = none :=
  (c9_check_piece_bounds sha1fix t_piece [] 1 (by decide)).2 (by decide)

/-! Claim C6: Message::number_of_messages and the keep-alive sentinel. -/

/-- Claim C6, confirmed: on a buffer that is a valid concatenation of encoded
messages -- a Have message, then a keep-alive, then another Have message --
number_of_messages treats the keep-alive bytes 00 00 00 00 as the end of the
buffer: it stops there and returns only the first message (count 1), never
returning the message that follows the keep-alive. -/
theorem c6_number_of_messages_stops_at_keepalive :
    Message.tryInto ⟨5, .Have, some [1, 2, 3, 4]⟩ = some [0, 0, 0, 5, 4, 1, 2, 3, 4]
    ∧ Message.tryInto ⟨0, .KeepAlive, none⟩ = some [0, 0, 0, 0]
    ∧ Message.tryInto ⟨5, .Have, some [5, 6, 7, 8]⟩ = some [0, 0, 0, 5, 4, 5, 6, 7, 8]
    ∧ c6_buf = [0, 0, 0, 5, 4, 1, 2, 3, 4] ++ [0, 0, 0, 0] ++ [0, 0, 0, 5, 4, 5, 6, 7, 8]
    ∧ Message.number_of_messages c6_buf = some ([[0, 0, 0, 5, 4, 1, 2, 3, 4]], 1) := by
  decide

/-! Claim C7: announce response parsing. -/

/-- Claim C7, confirmed: a 0.0.0.0:0 record terminates the peer record loop
wherever it is reached; when at least one record was parsed, the response is
built with the first parsed record discarded -- the returned ip and port
lists are exactly the tails of the parsed lists; and on the concrete S4
buffer the parse yields action 1, interval 1800, seeders 2 and exactly one
peer endpoint. -/
theorem c7_announce_response_parsing :
    (∀ fuel buf i, buf.getD i 0 = 0 → buf.getD (i + 1) 0 = 0 →
      buf.getD (i + 2) 0 = 0 → buf.getD (i + 3) 0 = 0 →
      buf.getD (i + 4) 0 = 0 → buf.getD (i + 5) 0 = 0 →
      parsePeersGo fuel buf i = [])
    ∧ (∀ buf r tail, 20 ≤ buf.length →
        parsePeersGo buf.length buf 20 = r :: tail →
        AnnounceMessageResponse.from_buffer buf =
          some ⟨sbe 4 (buf.take 4), sbe 4 ((buf.drop 4).take 4),
                sbe 4 ((buf.drop 8).take 4), sbe 4 ((buf.drop 12).take 4),
                sbe 4 ((buf.drop 16).take 4),
                tail.map Prod.fst, tail.map Prod.snd⟩)
    ∧ AnnounceMessageResponse.from_buffer c7_buf =
        some ⟨1, 132, 1800, 0, 2, [(10, 0, 0, 2)], [6881]⟩ := by
  refine ⟨?_, ?_, by decide⟩
  · intro fuel buf i h0 h1 h2 h3 h4 h5
    cases fuel with
    | zero => rfl
    | succ fuel =>
      simp only [parsePeersGo]
      split_ifs with hin hsent
      · rfl
      · exact absurd ⟨by rw [h0, h1, h2, h3], by rw [h4, h5]; rfl⟩ hsent
      · rfl
  · intro buf r tail hlen hparse
    unfold AnnounceMessageResponse.from_buffer
    rw [if_neg (by omega), hparse]

/-- Witness for claim C7: the S4 fixture parses two records and the response
drops the first of them. -/
theorem c7_announce_response_witness :
    AnnounceMessageResponse.from_buffer c7_buf =
      some ⟨sbe 4 (c7_buf.take 4), sbe 4 ((c7_buf.drop 4).take 4),
            sbe 4 ((c7_buf.drop 8).take 4), sbe 4 ((c7_buf.drop 12).take 4),
            sbe 4 ((c7_buf.drop 16).take 4),
            [((10, 0, 0, 2), 6881)].map Prod.fst,
            [((10, 0, 0, 2), 6881)].map Prod.snd⟩ :=
  c7_announce_response_parsing.2.1 c7_buf ((10, 0, 0, 1), 6881)
    [((10, 0, 0, 2), 6881)] (by decide) (by decide)

/-! Claim C8: the announce request encoding. -/

/-- Claim C8, counterexample: the encoding of an announce message is 100
bytes, not 98 -- the serialized field list (including the trailing
extensions u16) sums to 100. -/
theorem c8_announce_length_counterexample :
    (c8_msg.to_buffer).length = 100 ∧ (c8_msg.to_buffer).length ≠ 98 := by
  decide

/-! Claim C1: the message codec round-trip.  Helper lemmas first. -/

theorem take4_beBytes (b : List Nat) (h : ∀ x ∈ b, x < 256) (h4 : 4 ≤ b.length) :
    beBytes 4 (fromBe (b.take 4)) = b.take 4 := by
  have hl : (b.take 4).length = 4 := by
    rw [List.length_take]
    omega
  have hb := beBytes_fromBe (b.take 4) (fun x hx => h x (List.mem_of_mem_take hx))
  rwa [hl] at hb

theorem take5_eq (b : List Nat) (h5 : 5 ≤ b.length) :
    b.take 4 ++ [b.getD 4 0] = b.take 5 := by
  have h4 : 4 < b.length := by omega
  have ht : List.take (4 + 1) b = List.take 4 b ++ b[4]?.toList := List.take_succ
  rw [List.getElem?_eq_getElem h4] at ht
  rw [List.getD_eq_getElem b 0 h4]
  exact ht.symm

theorem reassemble (b : List Nat) (h5 : 5 ≤ b.length) :
    b.take 4 ++ ([b.getD 4 0] ++ b.drop 5) = b := by
  rw [← List.append_assoc, take5_eq b h5, List.take_append_drop]

theorem reassemble5 (b : List Nat) (hlen : b.length = 5) :
    b.take 4 ++ [b.getD 4 0] = b := by
  have h := reassemble b (by omega)
  rw [List.drop_eq_nil_of_le (by omega), List.append_nil] at h
  exact h

theorem tryFrom_len5 (b : List Nat) (hL5 : fromBe (b.take 4) = 5)
    (hlen : b.length = 5) :
    Message.tryFrom b = (MessageType.fromU8 (b.getD 4 0)).map
      (fun t => ⟨5, t, none⟩) := by
  have h4 : 4 < b.length := by omega
  cases hfu : MessageType.fromU8 (b.getD 4 0) with
  | none =>
    rw [List.getD_eq_getElem b 0 h4] at hfu
    simp [Message.tryFrom, hL5, hfu, hlen, List.getElem?_eq_getElem h4]
  | some t =>
    rw [List.getD_eq_getElem b 0 h4] at hfu
    simp [Message.tryFrom, hL5, hfu, hlen, List.getElem?_eq_getElem h4]

theorem tryFrom_payload (b : List Nat) (hL0 : fromBe (b.take 4) ≠ 0)
    (hL5 : fromBe (b.take 4) ≠ 5)
    (hlen : b.length = 4 + fromBe (b.take 4)) :
    Message.tryFrom b = (MessageType.fromU8 (b.getD 4 0)).map
      (fun t => ⟨fromBe (b.take 4), t, some (b.drop 5)⟩) := by
  have hL1 : 1 ≤ fromBe (b.take 4) := by omega
  have h5 : ¬ b.length < 5 := by omega
  have hend : ¬ b.length < 4 + fromBe (b.take 4) := by omega
  have hpay : (b.drop 5).take (4 + fromBe (b.take 4) - 5) = b.drop 5 := by
    apply List.take_of_length_le
    rw [List.length_drop]
    omega
  have h45 : 4 < b.length := by omega
  cases hfu : MessageType.fromU8 (b.getD 4 0) with
  | none =>
    rw [List.getD_eq_getElem b 0 h45] at hfu
    simp [Message.tryFrom, hL0, hL5, hfu, h5, hend, List.getElem?_eq_getElem h45]
  | some t =>
    rw [List.getD_eq_getElem b 0 h45] at hfu
    simp [Message.tryFrom, hL0, hL5, hfu, h5, hend, hpay, List.getElem?_eq_getElem h45]

theorem roundtripB (b : List Nat) (hg : goodWire b) :
    (Message.tryFrom b).bind Message.tryInto = some b := by
  obtain ⟨hbytes, hcase⟩ := hg
  obtain ⟨v, hgen⟩ : ∃ v, b.getD 4 0 = v := ⟨_, rfl⟩
  rcases hcase with ⟨hL5, hlen, hb4⟩ | ⟨hL0, hL5, hlen, hb4, hty⟩
  · have htk : beBytes 4 (fromBe (b.take 4)) = b.take 4 :=
      take4_beBytes b hbytes (by omega)
    rw [hL5] at htk
    have hre := reassemble5 b hlen
    rw [tryFrom_len5 b hL5 hlen, hgen]
    rw [hgen] at hb4 hre
    interval_cases v <;>
      (simp only [MessageType.fromU8, Option.map_some', Option.some_bind,
        Message.tryInto, MessageType.toU8]
       rw [htk, hre])
  · have htk : beBytes 4 (fromBe (b.take 4)) = b.take 4 :=
      take4_beBytes b hbytes (by omega)
    rw [tryFrom_payload b hL0 hL5 hlen, hgen]
    rw [hgen] at hb4 hty
    rcases hty with h4v | hLeq1
    · interval_cases v <;>
        (simp only [MessageType.fromU8, Option.map_some', Option.some_bind,
          Message.tryInto, MessageType.toU8]
         rw [htk, List.append_assoc]
         have hre := reassemble b (by omega)
         rw [hgen] at hre
         rw [hre])
    · have hlen5 : b.length = 5 := by omega
      have hdrop : b.drop 5 = [] := List.drop_eq_nil_of_le (by omega)
      have hre := reassemble5 b hlen5
      rw [hgen] at hre
      interval_cases v <;>
        (simp only [MessageType.fromU8, Option.map_some', Option.some_bind,
          Message.tryInto, MessageType.toU8, hdrop, List.append_nil]
         rw [htk, hre])

theorem tryFrom_encoded_payload (c : Nat) (T : MessageType) (p : List Nat)
    (hc : MessageType.fromU8 c = some T) (hlen : p.length ≠ 4)
    (hsz : p.length + 1 < 2 ^ 32) :
    Message.tryFrom (beBytes 4 (p.length + 1) ++ [c] ++ p) =
      some ⟨p.length + 1, T, some p⟩ := by
  have htk : (beBytes 4 (p.length + 1) ++ [c] ++ p).take 4 = beBytes 4 (p.length + 1) := by
    rw [List.append_assoc]
    exact List.take_left' (beBytes_length 4 _)
  have hfrom : fromBe ((beBytes 4 (p.length + 1) ++ [c] ++ p).take 4) = p.length + 1 := by
    rw [htk, fromBe_beBytes]
    apply Nat.mod_eq_of_lt
    calc p.length + 1 < 2 ^ 32 := hsz
      _ = 256 ^ 4 := by norm_num
  have hlenB : (beBytes 4 (p.length + 1) ++ [c] ++ p).length = 4 + (p.length + 1) := by
    simp [beBytes_length]
  have hd4 : (beBytes 4 (p.length + 1) ++ [c] ++ p).getD 4 0 = c := by
    simp only [List.getD_eq_getElem?_getD, List.append_assoc]
    rw [List.getElem?_append_right (by simp [beBytes_length])]
    simp [beBytes_length]
  have hd5 : (beBytes 4 (p.length + 1) ++ [c] ++ p).drop 5 = p := by
    rw [show (5 : Nat) = 4 + 1 from rfl, ← List.drop_drop, List.append_assoc,
      List.drop_left' (beBytes_length 4 _)]
    rfl
  rw [tryFrom_payload _ (by omega) (by omega) (by rw [hfrom]; exact hlenB) ,
    hd4, hc, Option.map_some', hfrom, hd5]

theorem roundtripA_payload (T : MessageType) (p : List Nat)
    (hT : T = .Have ∨ T = .Bitfield ∨ T = .Request ∨ T = .Piece ∨
      T = .Cancel ∨ T = .Port)
    (hlen : p.length ≠ 4) (hsz : p.length + 1 < 2 ^ 32) :
    (Message.tryInto ⟨p.length + 1, T, some p⟩).bind Message.tryFrom =
      some ⟨p.length + 1, T, some p⟩ := by
  rcases hT with rfl | rfl | rfl | rfl | rfl | rfl <;>
    (simp only [Message.tryInto, MessageType.toU8, Option.some_bind]
     exact tryFrom_encoded_payload _ _ p rfl hlen hsz)

/-- Claim C1, counterexample: the round-trip fails in both directions.  The
valid message with length field 1, type Choke and no payload (the type table
gives Choke length 1 and no payload) re-decodes with an empty payload rather
than none; and the byte sequence 00 00 00 02 00 09, accepted by the decoder
with no remainder, re-encodes to 00 00 00 02 00, dropping its payload byte. -/
theorem c1_roundtrip_counterexample :
    Message.tryInto ⟨1, .Choke, none⟩ = some [0, 0, 0, 1, 0]
    ∧ Message.tryFrom [0, 0, 0, 1, 0] = some ⟨1, .Choke, some []⟩
    ∧ (⟨1, .Choke, some []⟩ : Message) ≠ ⟨1, .Choke, none⟩
    ∧ Message.tryFrom [0, 0, 0, 2, 0, 9] = some ⟨2, .Choke, some [9]⟩
    ∧ Message.tryInto ⟨2, .Choke, some [9]⟩ = some [0, 0, 0, 2, 0]
    ∧ [0, 0, 0, 2, 0] ≠ [0, 0, 0, 2, 0, 9] := by
  decide

/-- Claim C1 (amended): the round-trip laws hold on the codec's canonical
forms.  Decode-after-encode restores exactly (i) the bare type messages with
length field 5 and type Choke, Unchoke, Interested or NotInterested, and (ii)
the payload messages of types Have..Port with length field 1 + payload size,
provided the payload is not 4 bytes (a 4-byte payload makes the length field
5, which decodes with the payload dropped); encode-after-decode reproduces
exactly the accepted remainder-free buffers of goodWire; and the concrete
S2 vector 00 00 00 05 01 decodes to length 5, type Unchoke, no payload, and
re-encodes to itself. -/
theorem c1_roundtrip_amended :
    (∀ T : MessageType, T = .Choke ∨ T = .Unchoke ∨ T = .Interested ∨
        T = .NotInterested →
      (Message.tryInto ⟨5, T, none⟩).bind Message.tryFrom = some ⟨5, T, none⟩)
    ∧ (∀ (T : MessageType) (p : List Nat),
        (T = .Have ∨ T = .Bitfield ∨ T = .Request ∨ T = .Piece ∨
          T = .Cancel ∨ T = .Port) →
        p.length ≠ 4 → p.length + 1 < 2 ^ 32 →
        (Message.tryInto ⟨p.length + 1, T, some p⟩).bind Message.tryFrom =
          some ⟨p.length + 1, T, some p⟩)
    ∧ (∀ b, goodWire b → (Message.tryFrom b).bind Message.tryInto = some b)
    ∧ Message.tryFrom [0, 0, 0, 5, 1] = some ⟨5, .Unchoke, none⟩
    ∧ Message.tryInto ⟨5, .Unchoke, none⟩ = some [0, 0, 0, 5, 1] := by
  refine ⟨?_, roundtripA_payload, roundtripB, by decide, by decide⟩
  rintro T (rfl | rfl | rfl | rfl) <;> decide

/-- Witness for claim C1: a Have message with a one-byte payload survives the
round-trip. -/
theorem c1_roundtrip_witness :
    (Message.tryInto ⟨1 + 1, .Have, some [9]⟩).bind Message.tryFrom =
      some ⟨1 + 1, .Have, some [9]⟩ :=
  c1_roundtrip_amended.2.1 .Have [9] (Or.inl rfl) (by decide) (by decide)

/-- Claim C8 (amended): the announce request encoding is exactly 100 bytes
(not 98: the serialized layout, which ends with port:u16 followed by
extensions:u16, sums to 100), the fields are laid out in the order
connection_id, action, transaction_id, info_hash, peer_id, downloaded, left,
uploaded, event, ip, key, num_want, port, extensions, and every multi-byte
integer field is serialized big-endian: reading each field's byte range
big-endian recovers the field's bit pattern. -/
theorem c8_announce_layout (m : AnnounceMessage)
    (hih : m.info_hash.length = 20) (hpid : m.peer_id.length = 20) :
    (m.to_buffer).length = 100
    ∧ fromBe ((m.to_buffer).take 8) = tcPat 8 m.connection_id
    ∧ fromBe (((m.to_buffer).drop 8).take 4) = tcPat 4 m.action
    ∧ fromBe (((m.to_buffer).drop 12).take 4) = tcPat 4 m.transaction_id
    ∧ ((m.to_buffer).drop 16).take 20 = m.info_hash
    ∧ ((m.to_buffer).drop 36).take 20 = m.peer_id
    ∧ fromBe (((m.to_buffer).drop 56).take 8) = tcPat 8 m.downloaded
    ∧ fromBe (((m.to_buffer).drop 64).take 8) = tcPat 8 m.left
    ∧ fromBe (((m.to_buffer).drop 72).take 8) = tcPat 8 m.uploaded
    ∧ fromBe (((m.to_buffer).drop 80).take 4) = tcPat 4 m.event
    ∧ fromBe (((m.to_buffer).drop 84).take 4) = m.ip % 256 ^ 4
    ∧ fromBe (((m.to_buffer).drop 88).take 4) = m.key % 256 ^ 4
    ∧ fromBe (((m.to_buffer).drop 92).take 4) = tcPat 4 m.num_want
    ∧ fromBe (((m.to_buffer).drop 96).take 2) = m.port % 256 ^ 2
    ∧ fromBe (((m.to_buffer).drop 98).take 2) = m.extensions % 256 ^ 2 := by
  have d8 : (m.to_buffer).drop 8 =
      beBytesInt 4 m.action ++ (beBytesInt 4 m.transaction_id ++ (m.info_hash ++
        (m.peer_id ++ (beBytesInt 8 m.downloaded ++ (beBytesInt 8 m.left ++
        (beBytesInt 8 m.uploaded ++ (beBytesInt 4 m.event ++ (beBytes 4 m.ip ++
        (beBytes 4 m.key ++ (beBytesInt 4 m.num_want ++ (beBytes 2 m.port ++
        beBytes 2 m.extensions))))))))))) := by
    rw [AnnounceMessage.to_buffer]
    exact List.drop_left' (beBytesInt_length 8 _)
  have d12 : (m.to_buffer).drop 12 =
      beBytesInt 4 m.transaction_id ++ (m.info_hash ++
        (m.peer_id ++ (beBytesInt 8 m.downloaded ++ (beBytesInt 8 m.left ++
        (beBytesInt 8 m.uploaded ++ (beBytesInt 4 m.event ++ (beBytes 4 m.ip ++
        (beBytes 4 m.key ++ (beBytesInt 4 m.num_want ++ (beBytes 2 m.port ++
        beBytes 2 m.extensions)))))))))) := by
    have h : (m.to_buffer).drop 12 = ((m.to_buffer).drop 8).drop 4 := by
      rw [List.drop_drop]
    rw [h, d8]
    exact List.drop_left' (beBytesInt_length 4 _)
  have d16 : (m.to_buffer).drop 16 =
      m.info_hash ++ (m.peer_id ++ (beBytesInt 8 m.downloaded ++ (beBytesInt 8 m.left ++
        (beBytesInt 8 m.uploaded ++ (beBytesInt 4 m.event ++ (beBytes 4 m.ip ++
        (beBytes 4 m.key ++ (beBytesInt 4 m.num_want ++ (beBytes 2 m.port ++
        beBytes 2 m.extensions))))))))) := by
    have h : (m.to_buffer).drop 16 = ((m.to_buffer).drop 12).drop 4 := by
      rw [List.drop_drop]
    rw [h, d12]
    exact List.drop_left' (beBytesInt_length 4 _)
  have d36 : (m.to_buffer).drop 36 =
      m.peer_id ++ (beBytesInt 8 m.downloaded ++ (beBytesInt 8 m.left ++
        (beBytesInt 8 m.uploaded ++ (beBytesInt 4 m.event ++ (beBytes 4 m.ip ++
        (beBytes 4 m.key ++ (beBytesInt 4 m.num_want ++ (beBytes 2 m.port ++
        beBytes 2 m.extensions)))))))) := by
    have h : (m.to_buffer).drop 36 = ((m.to_buffer).drop 16).drop 20 := by
      rw [List.drop_drop]
    rw [h, d16]
    exact List.drop_left' hih
  have d56 : (m.to_buffer).drop 56 =
      beBytesInt 8 m.downloaded ++ (beBytesInt 8 m.left ++
        (beBytesInt 8 m.uploaded ++ (beBytesInt 4 m.event ++ (beBytes 4 m.ip ++
        (beBytes 4 m.key ++ (beBytesInt 4 m.num_want ++ (beBytes 2 m.port ++
        beBytes 2 m.extensions))))))) := by
    have h : (m.to_buffer).drop 56 = ((m.to_buffer).drop 36).drop 20 := by
      rw [List.drop_drop]
    rw [h, d36]
    exact List.drop_left' hpid
  have d64 : (m.to_buffer).drop 64 =
      beBytesInt 8 m.left ++ (beBytesInt 8 m.uploaded ++ (beBytesInt 4 m.event ++
        (beBytes 4 m.ip ++ (beBytes 4 m.key ++ (beBytesInt 4 m.num_want ++
        (beBytes 2 m.port ++ beBytes 2 m.extensions)))))) := by
    have h : (m.to_buffer).drop 64 = ((m.to_buffer).drop 56).drop 8 := by
      rw [List.drop_drop]
    rw [h, d56]
    exact List.drop_left' (beBytesInt_length 8 _)
  have d72 : (m.to_buffer).drop 72 =
      beBytesInt 8 m.uploaded ++ (beBytesInt 4 m.event ++ (beBytes 4 m.ip ++
        (beBytes 4 m.key ++ (beBytesInt 4 m.num_want ++ (beBytes 2 m.port ++
        beBytes 2 m.extensions))))) := by
    have h : (m.to_buffer).drop 72 = ((m.to_buffer).drop 64).drop 8 := by
      rw [List.drop_drop]
    rw [h, d64]
    exact List.drop_left' (beBytesInt_length 8 _)
  have d80 : (m.to_buffer).drop 80 =
      beBytesInt 4 m.event ++ (beBytes 4 m.ip ++ (beBytes 4 m.key ++
        (beBytesInt 4 m.num_want ++ (beBytes 2 m.port ++ beBytes 2 m.extensions)))) := by
    have h : (m.to_buffer).drop 80 = ((m.to_buffer).drop 72).drop 8 := by
      rw [List.drop_drop]
    rw [h, d72]
    exact List.drop_left' (beBytesInt_length 8 _)
  have d84 : (m.to_buffer).drop 84 =
      beBytes 4 m.ip ++ (beBytes 4 m.key ++ (beBytesInt 4 m.num_want ++
        (beBytes 2 m.port ++ beBytes 2 m.extensions))) := by
    have h : (m.to_buffer).drop 84 = ((m.to_buffer).drop 80).drop 4 := by
      rw [List.drop_drop]
    rw [h, d80]
    exact List.drop_left' (beBytesInt_length 4 _)
  have d88 : (m.to_buffer).drop 88 =
      beBytes 4 m.key ++ (beBytesInt 4 m.num_want ++
        (beBytes 2 m.port ++ beBytes 2 m.extensions)) := by
    have h : (m.to_buffer).drop 88 = ((m.to_buffer).drop 84).drop 4 := by
      rw [List.drop_drop]
    rw [h, d84]
    exact List.drop_left' (beBytes_length 4 _)
  have d92 : (m.to_buffer).drop 92 =
      beBytesInt 4 m.num_want ++ (beBytes 2 m.port ++ beBytes 2 m.extensions) := by
    have h : (m.to_buffer).drop 92 = ((m.to_buffer).drop 88).drop 4 := by
      rw [List.drop_drop]
    rw [h, d88]
    exact List.drop_left' (beBytes_length 4 _)
  have d96 : (m.to_buffer).drop 96 = beBytes 2 m.port ++ beBytes 2 m.extensions := by
    have h : (m.to_buffer).drop 96 = ((m.to_buffer).drop 92).drop 4 := by
      rw [List.drop_drop]
    rw [h, d92]
    exact List.drop_left' (beBytesInt_length 4 _)
  have d98 : (m.to_buffer).drop 98 = beBytes 2 m.extensions := by
    have h : (m.to_buffer).drop 98 = ((m.to_buffer).drop 96).drop 2 := by
      rw [List.drop_drop]
    rw [h, d96]
    exact List.drop_left' (beBytes_length 2 _)
  refine ⟨?_, ?_, ?_, ?_, ?_, ?_, ?_, ?_, ?_, ?_, ?_, ?_, ?_, ?_, ?_⟩
  · rw [AnnounceMessage.to_buffer]
    simp [beBytesInt_length, beBytes_length, hih, hpid]
  · rw [AnnounceMessage.to_buffer, List.take_left' (beBytesInt_length 8 _)]
    exact fromBe_beBytesInt 8 _
  · rw [d8, List.take_left' (beBytesInt_length 4 _)]
    exact fromBe_beBytesInt 4 _
  · rw [d12, List.take_left' (beBytesInt_length 4 _)]
    exact fromBe_beBytesInt 4 _
  · rw [d16]
    exact List.take_left' hih
  · rw [d36]
    exact List.take_left' hpid
  · rw [d56, List.take_left' (beBytesInt_length 8 _)]
    exact fromBe_beBytesInt 8 _
  · rw [d64, List.take_left' (beBytesInt_length 8 _)]
    exact fromBe_beBytesInt 8 _
  · rw [d72, List.take_left' (beBytesInt_length 8 _)]
    exact fromBe_beBytesInt 8 _
  · rw [d80, List.take_left' (beBytesInt_length 4 _)]
    exact fromBe_beBytesInt 4 _
  · rw [d84, List.take_left' (beBytes_length 4 _)]
    exact fromBe_beBytes 4 _
  · rw [d88, List.take_left' (beBytes_length 4 _)]
    exact fromBe_beBytes 4 _
  · rw [d92, List.take_left' (beBytesInt_length 4 _)]
    exact fromBe_beBytesInt 4 _
  · rw [d96, List.take_left' (beBytes_length 2 _)]
    exact fromBe_beBytes 2 _
  · rw [d98, List.take_of_length_le (by rw [beBytes_length])]
    exact fromBe_beBytes 2 _

/-- Witness for claim C8: the fixture announce message encodes to 100 bytes. -/
theorem c8_announce_layout_witness : (c8_msg.to_buffer).length = 100 :=
  (c8_announce_layout c8_msg (by decide) (by decide)).1

end RustyTorrent
